import Mathlib

/-
Verification of the e-commerce crawler (crawler.py, main.py,
url_extractor_brotli.py) as a shallow embedding in Lean 4.

Strings are modelled by Lean `String` (a list of characters); Python
character classes are modelled on ASCII code points, which covers every
character occurring in the URLs, traps and patterns of this repository.
-/

/-! ## Character classes and Python str.lower -/

/-- ASCII decimal digit, modelling the regex class \d on the ASCII range
(all URLs handled by this repository are ASCII). -/
def isDigitChar (c : Char) : Bool := 48 ≤ c.toNat && c.toNat ≤ 57

/-- ASCII letter. -/
def isAlphaChar (c : Char) : Bool :=
  (65 ≤ c.toNat && c.toNat ≤ 90) || (97 ≤ c.toNat && c.toNat ≤ 122)

/-- Character of the regex class [A-Z0-9] (Amazon product-id patterns). -/
def isUpperDigitChar (c : Char) : Bool :=
  (65 ≤ c.toNat && c.toNat ≤ 90) || isDigitChar c

/-- Python str.lower on one character, modelled on the ASCII range. -/
def lowerChar (c : Char) : Char :=
  if 65 ≤ c.toNat && c.toNat ≤ 90 then Char.ofNat (c.toNat + 32) else c

/-- Python str.lower, modelled on the ASCII range. -/
def lowerStr (s : String) : String := String.mk (s.data.map lowerChar)

/-! ## Substring search (the semantics of re.search, and of the Python
operator `in` on strings) -/

/-- `anySuffix p l` holds when some suffix of `l` satisfies `p`: this is
the search part of re.search, which tries a match at every position. -/
def anySuffix (p : List Char → Bool) : List Char → Bool
  | [] => p []
  | c :: rest => p (c :: rest) || anySuffix p rest

/-- `containsSub needle hay`: `needle` occurs contiguously in `hay`
(Python `needle in hay`, and re.search of a literal regex). -/
def containsSub (needle hay : List Char) : Bool :=
  anySuffix (fun t => needle.isPrefixOf t) hay

/-- Match `lit` and then let `k` inspect what follows it. -/
def litThen (lit : List Char) (k : List Char → Bool) (t : List Char) : Bool :=
  lit.isPrefixOf t && k (t.drop lit.length)

/-! ## The regex patterns of the repository

Every regex occurring in the source is one of five shapes; `Pat`
compiles each shape to its re.search truth value:
- `lit s`            : a literal such as r'/product/' — search succeeds iff
                       the literal occurs as a substring;
- `litOpt pre o post`: r'/products?/' — pre, then an optional character o,
                       then post; search succeeds iff pre ++ post or
                       pre ++ o ++ post occurs;
- `litThenDigits s`  : r'page=\d+' — the literal followed by at least one
                       digit;
- `digitRun n`       : r'\d{4,8}' (n = 4) — search succeeds iff the string
                       contains a run of at least n consecutive digits
                       (the lower bound alone decides re.search truthiness);
- `litThenUpper s n` : r'/dp/[A-Z0-9]{10}' — the literal followed by n
                       characters from [A-Z0-9]. -/
inductive Pat where
  | lit : String → Pat
  | litOpt : String → Char → String → Pat
  | litThenDigits : String → Pat
  | digitRun : Nat → Pat
  | litThenUpper : String → Nat → Pat
deriving DecidableEq

/-- Truth value of `re.search(pattern, s)` for the pattern shapes above. -/
def patSearch : Pat → List Char → Bool
  | .lit s, t => containsSub s.data t
  | .litOpt pre o post, t =>
      containsSub (pre.data ++ post.data) t ||
      containsSub (pre.data ++ o :: post.data) t
  | .litThenDigits s, t =>
      anySuffix (litThen s.data (fun r => match r with
        | d :: _ => isDigitChar d
        | [] => false)) t
  | .digitRun n, t =>
      anySuffix (fun r => ((r.take n).length == n) && (r.take n).all isDigitChar) t
  | .litThenUpper s n, t =>
      anySuffix (litThen s.data (fun r =>
        ((r.take n).length == n) && (r.take n).all isUpperDigitChar)) t

/-- `self.product_url_patterns` of crawler.py lines 45-52 (identical in
url_extractor_brotli.py lines 49-56). -/
def product_url_patterns : List Pat :=
  [.lit "/product/",
   .lit "/item/",
   .lit "/p/",
   .litOpt "/product" 's' "/",
   .lit "/shop/",
   .digitRun 4]

/-- `_is_potential_product_url` of crawler.py lines 86-88: lowercase the
URL, then re.search each product pattern. -/
def _is_potential_product_url (url : String) : Bool :=
  product_url_patterns.any (fun p => patSearch p (lowerStr url).data)

/-- The URL contains a run of at least `n` consecutive digits. -/
def hasDigitRun (n : Nat) (url : String) : Bool :=
  patSearch (.digitRun n) url.data

/-! ## urlparse netloc (Python urllib.parse.urlsplit) -/

/-- Character allowed inside a URL scheme (letters, digits, +, -, .). -/
def schemeChar (c : Char) : Bool :=
  isAlphaChar c || isDigitChar c || c == '+' || c == '-' || c == '.'

/-- Strip a leading "scheme:" from a URL, following urlsplit: the text up
to the first colon is a scheme when the colon is not first, the first
character is a letter and every character before the colon is a scheme
character. -/
def splitSchemeRest (s : List Char) : List Char :=
  match s.findIdx? (fun c => c == ':') with
  | some i =>
      if 0 < i &&
         (match s with
          | c :: _ => isAlphaChar c
          | [] => false) &&
         (s.take i).all schemeChar
      then s.drop (i + 1) else s
  | none => s

/-- `urlparse(url).netloc`: after stripping the scheme, when the rest
starts with "//", the network location runs to the next '/', '?' or '#';
otherwise it is empty. -/
def netloc (url : String) : String :=
  match splitSchemeRest url.data with
  | '/' :: '/' :: r =>
      String.mk (r.takeWhile (fun c => !(c == '/' || c == '?' || c == '#')))
  | _ => ""

/-! ## Site Pattern Registry (main.py) -/

/-- One entry of the retailer registry: product regexes, pagination
regexes, rendering-required flag (main.py `_initialize_retailer_patterns`). -/
structure SitePattern where
  product_patterns : List Pat
  pagination_patterns : List Pat
  js_required : Bool
deriving DecidableEq

/-- The 'default' entry of `_initialize_retailer_patterns`
(main.py lines 100-114). -/
def default_site_pattern : SitePattern :=
  { product_patterns :=
      [.lit "/product/",
       .lit "/item/",
       .lit "/p/",
       .litOpt "/product" 's' "/",
       .lit "/shop/",
       .digitRun 4],
    pagination_patterns :=
      [.litThenDigits "page=",
       .litThenDigits "p="],
    js_required := false }

/-- `_initialize_retailer_patterns` of main.py lines 77-115, as the
insertion-ordered association list of the Python dict. -/
def retailer_patterns : List (String × SitePattern) :=
  [("amazon",
    { product_patterns :=
        [.litThenUpper "/dp/" 10,
         .litThenUpper "/gp/product/" 10],
      pagination_patterns :=
        [.litThenDigits "page=",
         .litThenDigits "pg="],
      js_required := true }),
   ("walmart",
    { product_patterns :=
        [.lit "/ip/",
         .litOpt "/product" 's' "/"],
      pagination_patterns :=
        [.litThenDigits "page="],
      js_required := true }),
   ("default", default_site_pattern)]

/-- `_detect_site_type` of main.py lines 177-184: take the netloc of the
argument, return the first registry entry whose key is a substring of
that netloc, else the default entry. -/
def _detect_site_type (url : String) : SitePattern :=
  let domain := netloc url
  match retailer_patterns.find? (fun rp => containsSub rp.1.data domain.data) with
  | some rp => rp.2
  | none => default_site_pattern

/-- `_is_valid_product_url` of main.py lines 203-211: re.search each
site-specific product pattern against the URL (no lowercasing here). -/
def _is_valid_product_url (url : String) : Bool :=
  (_detect_site_type url).product_patterns.any (fun p => patSearch p url.data)

/-- The trap substrings of `_filter_valid_links` (main.py lines 326-329). -/
def trap_list : List String :=
  ["login", "signin", "cart", "checkout", "account",
   "wishlist", "unsubscribe", "email-preference"]

/-- `any(trap in link.lower() for trap in [...])` of main.py line 326. -/
def has_trap (link : String) : Bool :=
  trap_list.any (fun t => containsSub t.data (lowerStr link).data)

/-- `_filter_valid_links` of main.py lines 314-341: keep a link iff its
netloc equals the crawled domain, it contains no trap substring, and it
matches a pagination pattern of the site patterns looked up for the bare
domain, or is a valid product URL. -/
def _filter_valid_links (links : List String) (domain : String) : List String :=
  let site_patterns := _detect_site_type domain
  links.filter (fun link =>
    (netloc link == domain) &&
    !(has_trap link) &&
    ((site_patterns.pagination_patterns.any (fun p => patSearch p link.data)) ||
      _is_valid_product_url link))

/-! ## Crawl Engine (crawler.py `crawl_domain` / `crawl_page`)

Python asyncio is single-threaded and cooperative: the membership check
and the insertion at crawler.py lines 139-142 run with no await between
them, so check-and-insert is atomic and every execution is a sequential
interleaving of these atomic blocks. The model below is the canonical
serialization of the fan-out (`asyncio.gather` children run in list order);
the invariants proved about it are interleaving-independent, since every
schedule performs the same guarded check-insert blocks.

Fetching and link extraction are abstracted by `web : String → List
String`, the links `_extract_links` produces for a page (a failed fetch
is the special case of a page with no links); the model records every
fetch performed in `fetched`, paired with its depth. -/

/-- The per-domain crawl state: `visited_urls` (as an insertion list, so
that double insertion is observable), `product_urls`, and the log of
fetches performed. -/
structure CrawlState where
  visited : List String
  products : List String
  fetched : List (String × Nat)
deriving DecidableEq

/-- `crawl_page` of crawler.py lines 138-159: drop the task when the
depth exceeds max_depth or the URL was visited; otherwise insert into
visited, fetch, classify the URL itself, and recurse on the extracted
links that look like product URLs and are unvisited at dispatch time.
`fuel` makes the recursion structural; `crawl_domain` supplies
`max_depth + 1`, so fuel runs out only at depths the source drops anyway. -/
def crawl_page (web : String → List String) (max_depth : Nat) :
    Nat → String → Nat → CrawlState → CrawlState
  | 0, _, _, st => st
  | fuel + 1, url, depth, st =>
    if depth > max_depth ∨ url ∈ st.visited then st
    else
      let st2 : CrawlState :=
        { visited := url :: st.visited,
          products :=
            if _is_potential_product_url url then url :: st.products
            else st.products,
          fetched := (url, depth) :: st.fetched }
      let tasks := (web url).filter
        (fun l => _is_potential_product_url l && !(decide (l ∈ st2.visited)))
      tasks.foldl (fun s l => crawl_page web max_depth fuel l (depth + 1) s) st2

/-- `crawl_domain` of crawler.py lines 126-166: start from
https://{domain} at depth 0 with empty visited and product sets; the
returned product list is `.products` of the final state. -/
def crawl_domain (web : String → List String) (max_depth : Nat)
    (domain : String) : CrawlState :=
  crawl_page web max_depth (max_depth + 1) ("https://" ++ domain) 0
    { visited := [], products := [], fetched := [] }

/-- The crawl invariant: the product set and the fetch log lie inside
visited, visited and the fetched URLs are duplicate-free, and every
fetch happened at a depth within the bound. -/
def CrawlInv (max_depth : Nat) (st : CrawlState) : Prop :=
  st.products ⊆ st.visited ∧
  st.visited.Nodup ∧
  st.fetched.map Prod.fst ⊆ st.visited ∧
  (st.fetched.map Prod.fst).Nodup ∧
  ∀ p ∈ st.fetched, p.2 ≤ max_depth

/-! ## Fetcher with retry (url_extractor_brotli.py `_fetch_page`) -/

/-- The retry configuration of url_extractor_brotli.py lines 116-122
(`ExponentialRetry(attempts=3, start_timeout=1, max_timeout=10,
factor=2, statuses={500, 502, 503, 504})`). Delays are in integral
seconds, which the source configuration stays within. -/
structure RetryPolicy where
  attempts : Nat
  start_timeout : Nat
  max_timeout : Nat
  factor : Nat
  statuses : List Nat
deriving DecidableEq

/-- The policy the source constructs at lines 116-122. -/
def source_retry_policy : RetryPolicy :=
  { attempts := 3, start_timeout := 1, max_timeout := 10, factor := 2,
    statuses := [500, 502, 503, 504] }

/-- Modelled from the spec: the retry loop of the external RetryClient
used at url_extractor_brotli.py lines 124-133 (the library itself is not
part of this repository). `responder i` is the HTTP status of the i-th
underlying network attempt. The loop issues an attempt; a status outside
`statuses` is returned at once; a retryable status sleeps
min(start_timeout * factor^attempt, max_timeout) and retries, up to
`attempts` total attempts, returning the last status. Returns the number
of network calls made, the backoff delays slept, and the final status. -/
def retryFrom (policy : RetryPolicy) (responder : Nat → Nat) :
    Nat → Nat → Nat × List Nat × Nat
  | _, 0 => (0, [], 0)
  | i, 1 => (1, [], responder i)
  | i, n + 2 =>
    let s := responder i
    if s ∈ policy.statuses then
      let d := min (policy.start_timeout * policy.factor ^ i) policy.max_timeout
      let rest := retryFrom policy responder (i + 1) (n + 1)
      (rest.1 + 1, d :: rest.2.1, rest.2.2)
    else (1, [], s)

/-- One logical retried GET: attempts start at index 0 with the policy's
attempt budget. -/
def retryFetch (policy : RetryPolicy) (responder : Nat → Nat) :
    Nat × List Nat × Nat :=
  retryFrom policy responder 0 policy.attempts

/-- The stats counters of url_extractor_brotli.py lines 64-70. -/
structure Stats where
  requests : Nat
  successful_requests : Nat
  failed_requests : Nat
deriving DecidableEq

/-- `_fetch_page` of url_extractor_brotli.py lines 103-153, restricted
to its stats and control flow: `requests` is incremented once at entry
of the logical call; the retried GET runs; a final 200 increments
`successful_requests` and reports success, any other final status (and
the timeout and exception paths, which the responder abstraction folds
into non-200 statuses) increments `failed_requests` and reports failure.
Returns the new stats, the success flag, and the number of underlying
network calls the retry loop performed. -/
def fetch_page (policy : RetryPolicy) (responder : Nat → Nat)
    (st : Stats) : Stats × Bool × Nat :=
  let st1 : Stats := { st with requests := st.requests + 1 }
  let r := retryFetch policy responder
  if r.2.2 == 200 then
    ({ st1 with successful_requests := st1.successful_requests + 1 }, true, r.1)
  else
    ({ st1 with failed_requests := st1.failed_requests + 1 }, false, r.1)

/-! ## Response decoding (url_extractor_brotli.py `_decode_response`) -/

/-- `response.charset or 'utf-8'` of line 92: Python `or` takes the
fallback on None and on the empty string. -/
def charsetOr (charset : Option String) : String :=
  match charset with
  | none => "utf-8"
  | some s => if s = "" then "utf-8" else s

/-- The dispatch on Content-Encoding of `_decode_response` lines 79-89:
lowercase the header (absent → ''); 'br' → brotli decompress, 'gzip' →
gzip decompress, 'deflate' and anything else → pass the bytes through.
The external codecs are parameters. -/
def decodeBytes (brotli_decompress gzip_decompress : List Nat → List Nat)
    (content_encoding : Option String) (content : List Nat) : List Nat :=
  let encoding := lowerStr (content_encoding.getD "")
  if encoding = "br" then brotli_decompress content
  else if encoding = "gzip" then gzip_decompress content
  else if encoding = "deflate" then content
  else content

/-- `_decode_response` of url_extractor_brotli.py lines 76-97: decompress
per Content-Encoding, then decode bytes to text with the response
charset or the UTF-8 fallback. Python's `bytes.decode(charset,
errors='replace')` is the external total function `text_decode` (the
errors='replace' mode is what makes it total rather than raising). -/
def _decode_response (brotli_decompress gzip_decompress : List Nat → List Nat)
    (text_decode : String → List Nat → String)
    (content_encoding : Option String) (charset : Option String)
    (content : List Nat) : String :=
  text_decode (charsetOr charset)
    (decodeBytes brotli_decompress gzip_decompress content_encoding content)

/-! ## Header Builder (url_extractor_brotli.py `_get_headers`) -/

/-- Python dict assignment on an insertion-ordered association list:
replace the value in place when the key exists, else append. -/
def setH (m : List (String × String)) (k v : String) :
    List (String × String) :=
  if m.any (fun p => p.1 == k) then
    m.map (fun p => if p.1 == k then (k, v) else p)
  else m ++ [(k, v)]

/-- Python `dict.update`: assign each overlay pair in order. -/
def updateH (m overlay : List (String × String)) : List (String × String) :=
  overlay.foldl (fun acc p => setH acc p.1 p.2) m

/-- Dict lookup (first binding; the builder keeps keys unique). -/
def lookupH (m : List (String × String)) (k : String) : Option String :=
  m.lookup k

/-- `self.default_headers` of url_extractor_brotli.py lines 35-47. -/
def default_headers : List (String × String) :=
  [("Accept", "text/html,application/xhtml+xml,application/xml;q=0.9,image/webp,*/*;q=0.8"),
   ("Accept-Language", "en-US,en;q=0.5"),
   ("Accept-Encoding", "gzip, deflate, br"),
   ("DNT", "1"),
   ("Connection", "keep-alive"),
   ("Upgrade-Insecure-Requests", "1"),
   ("Sec-Fetch-Dest", "document"),
   ("Sec-Fetch-Mode", "navigate"),
   ("Sec-Fetch-Site", "none"),
   ("Sec-Fetch-User", "?1"),
   ("Cache-Control", "max-age=0")]

/-- `_get_headers` of url_extractor_brotli.py lines 169-179 (the same
statement order as crawler.py lines 68-80): copy the defaults, set a
rotating User-Agent when enabled, set Referer to https://{domain},
overlay the caller's custom headers, then stamp X-Request-Timestamp.
`ua` and `ts` stand for the externally produced user-agent string and
`str(datetime.now().timestamp())`. -/
def _get_headers (rotate_user_agents : Bool) (ua : String)
    (custom_headers : List (String × String)) (domain ts : String) :
    List (String × String) :=
  let headers := default_headers
  let headers := if rotate_user_agents then setH headers "User-Agent" ua else headers
  let headers := setH headers "Referer" ("https://" ++ domain)
  let headers := updateH headers custom_headers
  setH headers "X-Request-Timestamp" ts

/-! ## Domain Orchestrator (url_extractor_brotli.py `discover_product_urls`) -/

/-- `discover_product_urls` of url_extractor_brotli.py lines 224-244
(identically main.py lines 343-363): run each configured domain's crawl
under its own timeout and collect `results[domain]`. The per-domain
outcome is abstracted as `outcome domain`: `some urls` when
`crawl_domain` completed with `urls`, `none` when `asyncio.wait_for`
raised TimeoutError, in which case the domain records an empty list.
The results dict is the association list keyed in configuration order
(a dict holds one binding per key; lookups below agree since a domain's
value depends only on the domain). -/
def discover_product_urls (domains : List String)
    (outcome : String → Option (List String)) : List (String × List String) :=
  domains.map (fun d => (d, (outcome d).getD []))

/-! # Helper lemmas -/

/-- A fold preserves any invariant its step function preserves. -/
lemma foldl_preserves {α σ : Type} (P : σ → Prop) (f : σ → α → σ)
    (h : ∀ s a, P s → P (f s a)) :
    ∀ (l : List α) (s : σ), P s → P (l.foldl f s)
  | [], _, hs => hs
  | a :: l, s, hs => foldl_preserves P f h l (f s a) (h s a hs)

/-- Transport `anySuffix` along a character map. -/
lemma anySuffix_map {p q : List Char → Bool} {g : Char → Char}
    (hpq : ∀ t, p t = true → q (t.map g) = true) :
    ∀ l : List Char, anySuffix p l = true → anySuffix q (l.map g) = true := by
  intro l
  induction l with
  | nil => intro h; exact hpq [] h
  | cons c rest ih =>
    intro h
    simp only [anySuffix, List.map_cons, Bool.or_eq_true] at h ⊢
    cases h with
    | inl h => exact Or.inl (hpq (c :: rest) h)
    | inr h => exact Or.inr (ih h)

/-- Lowercasing leaves an ASCII digit unchanged. -/
lemma lowerChar_of_digit {c : Char} (h : isDigitChar c = true) : lowerChar c = c := by
  have h' : ¬ ((65 ≤ c.toNat && c.toNat ≤ 90) = true) := by
    simp only [isDigitChar, Bool.and_eq_true, decide_eq_true_eq] at h
    simp only [Bool.and_eq_true, decide_eq_true_eq, not_and, not_le]
    omega
  unfold lowerChar
  rw [if_neg h']

/-- A run of n consecutive digits survives Python str.lower. -/
lemma digitRun_lower {n : Nat} {url : String}
    (h : patSearch (.digitRun n) url.data = true) :
    patSearch (.digitRun n) (lowerStr url).data = true := by
  unfold patSearch at h ⊢
  unfold lowerStr
  refine anySuffix_map (g := lowerChar) ?_ url.data h
  intro t ht
  simp only [Bool.and_eq_true, beq_iff_eq, List.all_eq_true] at ht ⊢
  obtain ⟨hlen, hall⟩ := ht
  constructor
  · rw [← List.map_take, List.length_map]
    exact hlen
  · intro c hc
    rw [← List.map_take] at hc
    obtain ⟨c0, hc0, rfl⟩ := List.mem_map.mp hc
    rw [lowerChar_of_digit (hall c0 hc0)]
    exact hall c0 hc0

/-! # Claims -/

/-- C10: under the default pattern set, product classification applies
re.search of \d{4,8} to the lowercased URL, so any URL containing four
or more consecutive digits anywhere is classified as a product URL,
whatever other patterns it does or does not match; likewise for
main.py's `_is_valid_product_url` whenever the site lookup yields the
default pattern set. -/
theorem digit_run_classifies_product (url : String)
    (h : hasDigitRun 4 url = true) :
    _is_potential_product_url url = true ∧
    (_detect_site_type url = default_site_pattern →
      _is_valid_product_url url = true) := by
  constructor
  · unfold _is_potential_product_url
    rw [List.any_eq_true]
    exact ⟨.digitRun 4, by simp [product_url_patterns], digitRun_lower h⟩
  · intro hdet
    unfold _is_valid_product_url
    rw [hdet, List.any_eq_true]
    exact ⟨.digitRun 4, by simp [default_site_pattern], h⟩

/-- Witness for C10 at a URL with no /product/, /item/, /p/ or /shop/
segment but a 5-digit run. -/
theorem digit_run_classifies_product_witness :
    _is_potential_product_url "https://shop.example/x/98761" = true :=
  (digit_run_classifies_product "https://shop.example/x/98761" (by decide)).1

/-- C3: every link kept by `_filter_valid_links` is free of trap
substrings, whatever product or pagination patterns it matches; in
particular a /login or /cart?id=1 link on the crawled domain is never
retained. -/
theorem filter_drops_trap_links :
    (∀ (links : List String) (domain link : String),
        link ∈ _filter_valid_links links domain → has_trap link = false) ∧
    (∀ (links : List String) (domain : String),
        "https://shop.example/login" ∉ _filter_valid_links links domain ∧
        "https://shop.example/cart?id=1" ∉ _filter_valid_links links domain) := by
  have key : ∀ (links : List String) (domain link : String),
      link ∈ _filter_valid_links links domain → has_trap link = false := by
    intro links domain link h
    simp only [_filter_valid_links, List.mem_filter, Bool.and_eq_true,
      Bool.not_eq_true'] at h
    exact h.2.1.2
  refine ⟨key, fun links domain => ⟨fun hmem => ?_, fun hmem => ?_⟩⟩
  · have h1 := key links domain _ hmem
    have h2 : has_trap "https://shop.example/login" = true := by decide
    rw [h2] at h1
    exact Bool.noConfusion h1
  · have h1 := key links domain _ hmem
    have h2 : has_trap "https://shop.example/cart?id=1" = true := by decide
    rw [h2] at h1
    exact Bool.noConfusion h1

/-- Witness for C3: a kept link, shown trap-free by the theorem. -/
theorem filter_drops_trap_links_witness :
    has_trap "https://shop.example/product/1" = false :=
  filter_drops_trap_links.1 ["https://shop.example/product/1"] "shop.example"
    "https://shop.example/product/1" (by decide)

/-- C4: a link on the crawled domain that carries no trap substring and
matches a pagination pattern of the site's pattern set is retained by
`_filter_valid_links`, whether or not it matches any product pattern;
concretely, /category?page=2 on the crawled domain is retained although
it is not a valid product URL. -/
theorem pagination_links_retained :
    (∀ (links : List String) (domain link : String),
        link ∈ links → netloc link = domain → has_trap link = false →
        (_detect_site_type domain).pagination_patterns.any
          (fun p => patSearch p link.data) = true →
        link ∈ _filter_valid_links links domain) ∧
    ("https://shop.example/category?page=2" ∈
        _filter_valid_links ["https://shop.example/category?page=2"]
          "shop.example" ∧
      _is_valid_product_url "https://shop.example/category?page=2" = false) := by
  constructor
  · intro links domain link hmem hnet htrap hpag
    simp only [_filter_valid_links, List.mem_filter, Bool.and_eq_true,
      Bool.not_eq_true', Bool.or_eq_true]
    exact ⟨hmem, ⟨⟨by simp [hnet], htrap⟩, Or.inl hpag⟩⟩
  · exact ⟨by decide, by decide⟩

/-- Witness for C4, applying the general retention to the pagination
link of the claim. -/
theorem pagination_links_retained_witness :
    "https://shop.example/category?page=2" ∈
      _filter_valid_links
        ["https://shop.example/other", "https://shop.example/category?page=2"]
        "shop.example" :=
  pagination_links_retained.1 _ "shop.example"
    "https://shop.example/category?page=2" (by decide) (by decide) (by decide)
    (by decide)


lemma retryFrom_const_retryable (policy : RetryPolicy) (responder : Nat → Nat)
    (s : Nat) (hs : s ∈ policy.statuses) (hr : ∀ i, responder i = s) :
    ∀ n i, retryFrom policy responder i (n + 1) =
      (n + 1,
       (List.range n).map
         (fun j => min (policy.start_timeout * policy.factor ^ (i + j))
           policy.max_timeout),
       s) := by
  intro n
  induction n with
  | zero => intro i; simp [retryFrom, hr i]
  | succ m ih =>
    intro i
    rw [show m + 1 + 1 = m + 2 from rfl]
    simp only [retryFrom, hr i, hs, if_true, ih (i + 1), Prod.mk.injEq]
    refine ⟨trivial, ?_, trivial⟩
    rw [List.range_succ_eq_map, List.map_cons, List.map_map]
    refine congrArg₂ _ (by simp) ?_
    apply List.map_congr_left
    intro j _
    have hj : i + 1 + j = i + (j + 1) := by omega
    simp [Function.comp, hj]

lemma retryFrom_terminal (policy : RetryPolicy) (responder : Nat → Nat)
    (i : Nat) (h : responder i ∉ policy.statuses) :
    ∀ n, retryFrom policy responder i (n + 1) = (1, [], responder i) := by
  intro n
  cases n with
  | zero => simp [retryFrom]
  | succ m => simp [retryFrom, h]

/-- C5: against a server answering 503 on every attempt the fetcher
performs exactly `attempts` network calls, sleeping the capped
exponential delays min(start_timeout * factor^attempt, max_timeout)
between them, and reports the logical fetch as a failure; a first
status outside the retryable set is terminal after one call with no
backoff, and when it is not 200 the fetch reports failure. -/
theorem fetch_retry_bound :
    (∀ (policy : RetryPolicy) (responder : Nat → Nat) (st : Stats),
        0 < policy.attempts → (∀ i, responder i = 503) →
        503 ∈ policy.statuses →
        retryFetch policy responder =
          (policy.attempts,
           (List.range (policy.attempts - 1)).map
             (fun j => min (policy.start_timeout * policy.factor ^ j)
               policy.max_timeout),
           503) ∧
        (fetch_page policy responder st).2.1 = false) ∧
    (∀ (policy : RetryPolicy) (responder : Nat → Nat) (st : Stats),
        0 < policy.attempts → responder 0 ∉ policy.statuses →
        retryFetch policy responder = (1, [], responder 0) ∧
        (responder 0 ≠ 200 → (fetch_page policy responder st).2.1 = false)) := by
  constructor
  · intro policy responder st hpos hr hmem
    obtain ⟨k, hk⟩ : ∃ k, policy.attempts = k + 1 :=
      ⟨policy.attempts - 1, by omega⟩
    have hfetch : retryFetch policy responder =
        (policy.attempts,
         (List.range (policy.attempts - 1)).map
           (fun j => min (policy.start_timeout * policy.factor ^ j)
             policy.max_timeout),
         503) := by
      unfold retryFetch
      rw [hk, retryFrom_const_retryable policy responder 503 hmem hr k 0]
      simp [hk]
    refine ⟨hfetch, ?_⟩
    simp [fetch_page, hfetch]
  · intro policy responder st hpos hmem
    obtain ⟨k, hk⟩ : ∃ k, policy.attempts = k + 1 :=
      ⟨policy.attempts - 1, by omega⟩
    have hfetch : retryFetch policy responder = (1, [], responder 0) := by
      unfold retryFetch
      rw [hk, retryFrom_terminal policy responder 0 hmem k]
    refine ⟨hfetch, fun h200 => ?_⟩
    simp [fetch_page, hfetch, h200]

theorem fetch_retry_bound_witness :
    retryFetch source_retry_policy (fun _ => 503) = (3, [1, 2], 503) ∧
    (fetch_page source_retry_policy (fun _ => 503) ⟨0, 0, 0⟩).2.1 = false ∧
    retryFetch source_retry_policy (fun _ => 404) = (1, [], 404) := by
  refine ⟨?_, ?_, ?_⟩
  · exact ((fetch_retry_bound.1 source_retry_policy (fun _ => 503) ⟨0, 0, 0⟩
      (by decide) (fun _ => rfl) (by decide)).1).trans (by decide)
  · exact (fetch_retry_bound.1 source_retry_policy (fun _ => 503) ⟨0, 0, 0⟩
      (by decide) (fun _ => rfl) (by decide)).2
  · exact (fetch_retry_bound.2 source_retry_policy (fun _ => 404) ⟨0, 0, 0⟩
      (by decide) (by decide)).1

/-- C6 (amended): the requests counter increments exactly once per
logical `_fetch_page` call, however many network attempts the retry
layer performs, and exactly one of successful_requests and
failed_requests increments, by exactly one, per completed call. -/
theorem fetch_counters_per_call :
    ∀ (policy : RetryPolicy) (responder : Nat → Nat) (st : Stats),
      (fetch_page policy responder st).1.requests = st.requests + 1 ∧
      (((fetch_page policy responder st).1.successful_requests =
          st.successful_requests + 1 ∧
        (fetch_page policy responder st).1.failed_requests =
          st.failed_requests) ∨
       ((fetch_page policy responder st).1.successful_requests =
          st.successful_requests ∧
        (fetch_page policy responder st).1.failed_requests =
          st.failed_requests + 1)) := by
  intro policy responder st
  unfold fetch_page
  dsimp only
  split
  · exact ⟨rfl, Or.inl ⟨rfl, rfl⟩⟩
  · exact ⟨rfl, Or.inr ⟨rfl, rfl⟩⟩

/-- C6 counterexample: with the source retry policy and a server that
answers 503 on every attempt, the retry layer performs 3 network calls
but the requests counter rises by 1, not by 3 — refuting the claim that
requests increments once per underlying network attempt. -/
theorem fetch_requests_counterexample :
    (fetch_page source_retry_policy (fun _ => 503) ⟨0, 0, 0⟩).2.2 = 3 ∧
    (fetch_page source_retry_policy (fun _ => 503) ⟨0, 0, 0⟩).1.requests = 1 ∧
    ¬ ((fetch_page source_retry_policy (fun _ => 503) ⟨0, 0, 0⟩).1.requests = 3) := by
  decide

/-- C7: decoding inverts the declared compression — a brotli body under
Content-Encoding br and a gzip body under gzip decode back to the
original bytes, while deflate, an absent, or an unrecognized encoding
passes the bytes through unchanged — and the resulting bytes are text
decoded with the response charset, falling back to utf-8 when the
charset is absent or empty. -/
theorem decode_response_inverts_encoding :
    ∀ (brC brD gzC gzD : List Nat → List Nat)
      (td : String → List Nat → String) (cs : Option String) (body : List Nat),
      (∀ x, brD (brC x) = x) → (∀ x, gzD (gzC x) = x) →
      (_decode_response brD gzD td (some "br") cs (brC body) =
          td (charsetOr cs) body ∧
       _decode_response brD gzD td (some "gzip") cs (gzC body) =
          td (charsetOr cs) body ∧
       _decode_response brD gzD td (some "deflate") cs body =
          td (charsetOr cs) body ∧
       _decode_response brD gzD td none cs body = td (charsetOr cs) body ∧
       (∀ enc, lowerStr enc ≠ "br" → lowerStr enc ≠ "gzip" →
          lowerStr enc ≠ "deflate" →
          _decode_response brD gzD td (some enc) cs body =
            td (charsetOr cs) body) ∧
       charsetOr none = "utf-8" ∧
       (∀ c, c ≠ "" → charsetOr (some c) = c)) := by
  intro brC brD gzC gzD td cs body hbr hgz
  refine ⟨?_, ?_, rfl, rfl, ?_, rfl, ?_⟩
  · show td (charsetOr cs) (brD (brC body)) = td (charsetOr cs) body
    rw [hbr]
  · show td (charsetOr cs) (gzD (gzC body)) = td (charsetOr cs) body
    rw [hgz]
  · intro enc h1 h2 h3
    unfold _decode_response decodeBytes
    simp only [Option.getD_some]
    rw [if_neg h1, if_neg h2, if_neg h3]
  · intro c hc
    simp [charsetOr, hc]

theorem decode_response_inverts_encoding_witness :
    _decode_response List.reverse id (fun _ l => String.mk (l.map Char.ofNat))
      (some "br") none (List.reverse [104, 105]) =
      String.mk ([104, 105].map Char.ofNat) :=
  (decode_response_inverts_encoding List.reverse List.reverse id id
    (fun _ l => String.mk (l.map Char.ofNat)) none [104, 105]
    (fun x => List.reverse_reverse x) (fun _ => rfl)).1

lemma discover_lookup (domains : List String)
    (outcome : String → Option (List String)) (d : String) (hd : d ∈ domains) :
    (discover_product_urls domains outcome).lookup d =
      some ((outcome d).getD []) := by
  induction domains with
  | nil => cases hd
  | cons a rest ih =>
    simp only [discover_product_urls, List.map_cons] at ih ⊢
    by_cases h : d = a
    · subst h
      simp [List.lookup]
    · have hd' : d ∈ rest := (List.mem_cons.mp hd).resolve_left h
      have hba : (d == a) = false := beq_eq_false_iff_ne.mpr h
      simpa [List.lookup, hba] using ih hd'

/-- C8: the mapping returned by `discover_product_urls` has an entry for
every configured domain; a timed-out domain is recorded with an empty
list, a completed one with its product list; and a domain's entry
depends only on that domain's own outcome, so another domain's failure
or timeout cannot affect it. -/
theorem discover_returns_all_domains :
    (∀ (domains : List String) (outcome : String → Option (List String))
        (d : String), d ∈ domains →
        ((discover_product_urls domains outcome).lookup d).isSome = true ∧
        (outcome d = none →
          (discover_product_urls domains outcome).lookup d = some []) ∧
        (∀ urls, outcome d = some urls →
          (discover_product_urls domains outcome).lookup d = some urls)) ∧
    (∀ (domains : List String)
        (outcome outcome2 : String → Option (List String)) (d : String),
        outcome d = outcome2 d →
        (discover_product_urls domains outcome).lookup d =
          (discover_product_urls domains outcome2).lookup d) := by
  constructor
  · intro domains outcome d hd
    refine ⟨?_, ?_, ?_⟩
    · rw [discover_lookup domains outcome d hd]; rfl
    · intro hnone; rw [discover_lookup domains outcome d hd, hnone]; rfl
    · intro urls hsome; rw [discover_lookup domains outcome d hd, hsome]; rfl
  · intro domains outcome outcome2 d h
    induction domains with
    | nil => rfl
    | cons a rest ih =>
      simp only [discover_product_urls, List.map_cons] at ih ⊢
      by_cases ha : d = a
      · subst ha
        simp [List.lookup, h]
      · have hba : (d == a) = false := beq_eq_false_iff_ne.mpr ha
        simpa [List.lookup, hba] using ih

theorem discover_returns_all_domains_witness :
    ((discover_product_urls ["www.zara.com", "shop.example"]
        (fun d => if d == "shop.example" then some ["https://shop.example/p/1"] else none)).lookup
      "www.zara.com") = some [] :=
  (discover_returns_all_domains.1 ["www.zara.com", "shop.example"]
    (fun d => if d == "shop.example" then some ["https://shop.example/p/1"] else none)
    "www.zara.com" (by decide)).2.1 (by decide)

lemma lookup_map_replace (k v : String) :
    ∀ m : List (String × String),
      List.lookup k (m.map (fun p => if p.1 == k then (k, v) else p)) =
        (List.lookup k m).map (fun _ => v) := by
  intro m
  induction m with
  | nil => rfl
  | cons p rest ih =>
    obtain ⟨pk, pv⟩ := p
    by_cases hp : pk = k
    · subst hp
      simp only [List.map_cons]
      have hhead :
          (if ((pk, pv) : String × String).1 == pk then (pk, v) else (pk, pv)) =
            (pk, v) := by simp
      rw [hhead]
      simp [List.lookup]
    · have hb : (pk == k) = false := beq_eq_false_iff_ne.mpr hp
      have hb' : (k == pk) = false :=
        beq_eq_false_iff_ne.mpr (fun he => hp he.symm)
      simp only [List.map_cons]
      have hhead :
          (if ((pk, pv) : String × String).1 == k then (k, v) else (pk, pv)) =
            (pk, pv) := by simp [hb]
      rw [hhead]
      simp only [List.lookup, hb']
      simpa using ih

lemma lookup_some_of_any (k : String) :
    ∀ m : List (String × String),
      m.any (fun p => p.1 == k) = true → ∃ w, List.lookup k m = some w := by
  intro m
  induction m with
  | nil => intro h; simp at h
  | cons p rest ih =>
    intro h
    by_cases hb : (k == p.1) = true
    · exact ⟨p.2, by simp [List.lookup, hb]⟩
    · have hb' : (k == p.1) = false := by simpa using hb
      have hpk : (p.1 == k) = false := by
        rw [beq_eq_false_iff_ne] at hb' ⊢
        exact fun he => hb' he.symm
      simp only [List.any_cons, hpk, Bool.false_or] at h
      obtain ⟨w, hw⟩ := ih h
      exact ⟨w, by simp [List.lookup, hb', hw]⟩

lemma lookup_none_of_any_false (k : String) :
    ∀ m : List (String × String),
      m.any (fun p => p.1 == k) = false → List.lookup k m = none := by
  intro m
  induction m with
  | nil => intro _; rfl
  | cons p rest ih =>
    intro h
    simp only [List.any_cons, Bool.or_eq_false_iff] at h
    have hb : (k == p.1) = false := by
      rw [beq_eq_false_iff_ne]
      exact fun he => (beq_eq_false_iff_ne.mp h.1) he.symm
    simp [List.lookup, hb, ih h.2]

lemma lookup_append_of_none (k : String) (l2 : List (String × String)) :
    ∀ m, List.lookup k m = none → List.lookup k (m ++ l2) = List.lookup k l2 := by
  intro m
  induction m with
  | nil => intro _; rfl
  | cons p rest ih =>
    intro h
    cases hb : (k == p.1) with
    | true => simp [List.lookup, hb] at h
    | false =>
      simp only [List.lookup, hb] at h
      simp only [List.cons_append, List.lookup, hb]
      exact ih h

lemma lookupH_setH_self (m : List (String × String)) (k v : String) :
    lookupH (setH m k v) k = some v := by
  unfold lookupH setH
  by_cases h : m.any (fun p => p.1 == k) = true
  · rw [if_pos h, lookup_map_replace]
    obtain ⟨w, hw⟩ := lookup_some_of_any k m h
    rw [hw]
    rfl
  · have hf : m.any (fun p => p.1 == k) = false := Bool.eq_false_iff.mpr h
    rw [if_neg h, lookup_append_of_none k _ m (lookup_none_of_any_false k m hf)]
    simp [List.lookup]

lemma lookup_map_replace_ne (k v k' : String) (hne : k' ≠ k) :
    ∀ m : List (String × String),
      List.lookup k' (m.map (fun p => if p.1 == k then (k, v) else p)) =
        List.lookup k' m := by
  intro m
  induction m with
  | nil => rfl
  | cons p rest ih =>
    obtain ⟨pk, pv⟩ := p
    by_cases hp : pk = k
    · subst hp
      simp only [List.map_cons]
      have hhead :
          (if ((pk, pv) : String × String).1 == pk then (pk, v) else (pk, pv)) =
            (pk, v) := by simp
      rw [hhead]
      have hb : (k' == pk) = false := beq_eq_false_iff_ne.mpr hne
      simp only [List.lookup, hb]
      simpa using ih
    · have hb : (pk == k) = false := beq_eq_false_iff_ne.mpr hp
      simp only [List.map_cons]
      have hhead :
          (if ((pk, pv) : String × String).1 == k then (k, v) else (pk, pv)) =
            (pk, pv) := by simp [hb]
      rw [hhead]
      cases hk : (k' == pk) with
      | true => simp only [List.lookup, hk]
      | false =>
        simp only [List.lookup, hk]
        simpa using ih

lemma lookup_append_single_ne (k v k' : String) (hne : k' ≠ k) :
    ∀ m : List (String × String),
      List.lookup k' (m ++ [(k, v)]) = List.lookup k' m := by
  intro m
  induction m with
  | nil => simp [List.lookup, beq_eq_false_iff_ne.mpr hne]
  | cons p rest ih =>
    cases hk : (k' == p.1) with
    | true => simp only [List.cons_append, List.lookup, hk]
    | false =>
      simp only [List.cons_append, List.lookup, hk]
      exact ih

lemma lookupH_setH_ne (m : List (String × String)) (k v k' : String)
    (hne : k' ≠ k) : lookupH (setH m k v) k' = lookupH m k' := by
  unfold lookupH setH
  by_cases h : m.any (fun p => p.1 == k) = true
  · rw [if_pos h]
    exact lookup_map_replace_ne k v k' hne m
  · rw [if_neg h]
    exact lookup_append_single_ne k v k' hne m

lemma lookupH_updateH_not_mem (k : String) :
    ∀ (overlay : List (String × String)) (m : List (String × String)),
      k ∉ overlay.map Prod.fst →
      lookupH (updateH m overlay) k = lookupH m k := by
  intro overlay
  induction overlay with
  | nil => intro m _; rfl
  | cons p rest ih =>
    intro m h
    simp only [List.map_cons, List.mem_cons, not_or] at h
    rw [show updateH m (p :: rest) = updateH (setH m p.1 p.2) rest from rfl]
    rw [ih (setH m p.1 p.2) h.2]
    exact lookupH_setH_ne m p.1 p.2 k h.1

lemma lookupH_updateH_mem (k v : String) :
    ∀ (overlay : List (String × String)) (m : List (String × String)),
      (overlay.map Prod.fst).Nodup → (k, v) ∈ overlay →
      lookupH (updateH m overlay) k = some v := by
  intro overlay
  induction overlay with
  | nil => intro m _ h; cases h
  | cons p rest ih =>
    intro m hnd hmem
    simp only [List.map_cons, List.nodup_cons] at hnd
    rw [show updateH m (p :: rest) = updateH (setH m p.1 p.2) rest from rfl]
    rcases List.mem_cons.mp hmem with heq | hrest
    · obtain ⟨pk, pv⟩ := p
      obtain ⟨hk, hv⟩ := Prod.mk.injEq .. ▸ heq
      subst hk
      subst hv
      rw [lookupH_updateH_not_mem k rest (setH m k v) hnd.1]
      exact lookupH_setH_self m k v
    · exact ih (setH m p.1 p.2) hnd.2 hrest

/-- C9 (amended): the header map built for a request maps every key of
custom_headers other than X-Request-Timestamp to the caller-supplied
value — caller overrides win over every header set before the overlay,
Referer and User-Agent included — but X-Request-Timestamp is stamped
after the overlay and always carries the builder's timestamp. -/
theorem custom_headers_override :
    (∀ (rotate : Bool) (ua : String) (custom : List (String × String))
        (domain ts k v : String),
        (custom.map Prod.fst).Nodup → (k, v) ∈ custom →
        k ≠ "X-Request-Timestamp" →
        lookupH (_get_headers rotate ua custom domain ts) k = some v) ∧
    (∀ (rotate : Bool) (ua : String) (custom : List (String × String))
        (domain ts : String),
        lookupH (_get_headers rotate ua custom domain ts)
          "X-Request-Timestamp" = some ts) := by
  constructor
  · intro rotate ua custom domain ts k v hnd hmem hne
    show lookupH
      (setH (updateH (setH (if rotate then setH default_headers "User-Agent" ua
          else default_headers) "Referer" ("https://" ++ domain)) custom)
        "X-Request-Timestamp" ts) k = some v
    rw [lookupH_setH_ne _ _ _ k hne]
    exact lookupH_updateH_mem k v custom _ hnd hmem
  · intro rotate ua custom domain ts
    show lookupH
      (setH (updateH (setH (if rotate then setH default_headers "User-Agent" ua
          else default_headers) "Referer" ("https://" ++ domain)) custom)
        "X-Request-Timestamp" ts) "X-Request-Timestamp" = some ts
    exact lookupH_setH_self _ _ _

theorem custom_headers_override_witness :
    lookupH (_get_headers true "ua0" [("Accept", "application/json")]
      "shop.example" "123.0") "Accept" = some "application/json" :=
  custom_headers_override.1 true "ua0" [("Accept", "application/json")]
    "shop.example" "123.0" "Accept" "application/json" (by decide) (by decide)
    (by decide)

/-- C9 counterexample: a caller-supplied X-Request-Timestamp header is
overwritten by the builder's own timestamp, refuting the claim that
caller overrides win over every default, the timestamp included. -/
theorem custom_headers_timestamp_counterexample :
    ("X-Request-Timestamp", "caller") ∈ [("X-Request-Timestamp", "caller")] ∧
    lookupH
      (_get_headers false "ua0" [("X-Request-Timestamp", "caller")]
        "shop.example" "1700000000.0") "X-Request-Timestamp" =
      some "1700000000.0" ∧
    lookupH
      (_get_headers false "ua0" [("X-Request-Timestamp", "caller")]
        "shop.example" "1700000000.0") "X-Request-Timestamp" ≠
      some "caller" := by
  exact ⟨by decide, by decide, by decide⟩

lemma crawlInv_step {max_depth depth : Nat} {url : String} {st : CrawlState}
    (hd : depth ≤ max_depth) (hv : url ∉ st.visited)
    (h : CrawlInv max_depth st) :
    CrawlInv max_depth
      { visited := url :: st.visited,
        products :=
          if _is_potential_product_url url then url :: st.products
          else st.products,
        fetched := (url, depth) :: st.fetched } := by
  obtain ⟨h1, h2, h3, h4, h5⟩ := h
  refine ⟨?_, ?_, ?_, ?_, ?_⟩
  · dsimp only
    split
    · exact List.cons_subset.mpr
        ⟨List.mem_cons_self url st.visited, h1.trans (List.subset_cons_self _ _)⟩
    · exact h1.trans (List.subset_cons_self _ _)
  · exact List.nodup_cons.mpr ⟨hv, h2⟩
  · dsimp only [List.map_cons]
    exact List.cons_subset.mpr
      ⟨List.mem_cons_self url st.visited, h3.trans (List.subset_cons_self _ _)⟩
  · dsimp only [List.map_cons]
    exact List.nodup_cons.mpr ⟨fun hm => hv (h3 hm), h4⟩
  · intro p hp
    rcases List.mem_cons.mp hp with heq | hmem
    · rw [heq]
      exact hd
    · exact h5 p hmem

lemma crawl_page_inv (web : String → List String) (max_depth : Nat) :
    ∀ (fuel : Nat) (url : String) (depth : Nat) (st : CrawlState),
      CrawlInv max_depth st →
      CrawlInv max_depth (crawl_page web max_depth fuel url depth st) := by
  intro fuel
  induction fuel with
  | zero => intro url depth st h; simpa [crawl_page] using h
  | succ n ih =>
    intro url depth st h
    by_cases hc : depth > max_depth ∨ url ∈ st.visited
    · simpa [crawl_page, hc] using h
    · simp only [crawl_page]
      rw [if_neg hc]
      refine foldl_preserves (CrawlInv max_depth) _
        (fun s l hs => ih l (depth + 1) s hs) _ _ ?_
      exact crawlInv_step
        (Nat.not_lt.mp (fun hlt => hc (Or.inl hlt)))
        (fun hm => hc (Or.inr hm)) h

/-- C1: for every completed domain crawl the product URL set is a subset
of the visited set, no URL is ever inserted into the visited set twice,
and no URL is fetched twice — a URL is added to products only after
insertion into visited, and a visited URL is never re-dispatched. -/
theorem crawl_products_within_visited (web : String → List String)
    (max_depth : Nat) (domain : String) :
    (crawl_domain web max_depth domain).products ⊆
      (crawl_domain web max_depth domain).visited ∧
    (crawl_domain web max_depth domain).visited.Nodup ∧
    ((crawl_domain web max_depth domain).fetched.map Prod.fst).Nodup := by
  have h := crawl_page_inv web max_depth (max_depth + 1)
    ("https://" ++ domain) 0 { visited := [], products := [], fetched := [] }
    ⟨by simp, by simp, by simp, by simp, by simp⟩
  exact ⟨h.1, h.2.1, h.2.2.2.1⟩

theorem crawl_products_within_visited_witness :
    "https://shop.example/p/1" ∈
      (crawl_domain
        (fun u => if u == "https://shop.example"
          then ["https://shop.example/p/1"] else [])
        1 "shop.example").visited :=
  (crawl_products_within_visited
    (fun u => if u == "https://shop.example"
      then ["https://shop.example/p/1"] else [])
    1 "shop.example").1 (by decide)

/-- C2: a crawl task at depth max_depth + 1 returns leaving the state —
its fetch log included — untouched, and every fetch a domain crawl
performs happens at a depth of at most max_depth. -/
theorem crawl_depth_bounded (web : String → List String) (max_depth : Nat)
    (domain : String) :
    (∀ (fuel : Nat) (url : String) (st : CrawlState),
        crawl_page web max_depth fuel url (max_depth + 1) st = st) ∧
    (∀ p ∈ (crawl_domain web max_depth domain).fetched, p.2 ≤ max_depth) := by
  constructor
  · intro fuel url st
    cases fuel with
    | zero => rfl
    | succ n =>
      simp only [crawl_page]
      rw [if_pos (Or.inl (Nat.lt_succ_self max_depth))]
  · have h := crawl_page_inv web max_depth (max_depth + 1)
      ("https://" ++ domain) 0 { visited := [], products := [], fetched := [] }
      ⟨by simp, by simp, by simp, by simp, by simp⟩
    exact h.2.2.2.2

theorem crawl_depth_bounded_witness :
    crawl_page (fun _ => []) 0 5 "https://x.example" 1
      { visited := [], products := [], fetched := [] } =
      { visited := [], products := [], fetched := [] } ∧
    ("https://shop.example", 0) ∈
        (crawl_domain (fun _ => []) 0 "shop.example").fetched ∧
    (("https://shop.example", 0) : String × Nat).2 ≤ 0 :=
  ⟨(crawl_depth_bounded (fun _ => []) 0 "shop.example").1 5 "https://x.example" _,
   by decide,
   (crawl_depth_bounded (fun _ => []) 0 "shop.example").2
     ("https://shop.example", 0) (by decide)⟩
